import Mathlib

/-!
# mongo-init.js: database bootstrap script

A shallow embedding of `src/mongo-init.js`.  The script is a straight-line
sequence of shell statements: one assignment to the shell variable `db`,
eight administrative calls on the database server, and one `print`.  It has no
`try`/`catch`, so a call that throws ends the run.

The embedding has three layers:

* the statements of the script (`Stmt`, `mongoInit`), transcribed from the
  source line by line;
* the shell that runs them against a server (`execStmt`, `runStmts`, `run`),
  generic in the server;
* a reference server (`mongod`), which is not part of the repository and is
  modelled from the specification.
-/

namespace MongoInit

/-! ## Data model -/

/-- One entry of a credential's `roles` array: `{ role: ..., db: ... }`. -/
structure Role where
  role : String
  db : String
deriving DecidableEq, Repr

/-- The argument object of `db.createUser`: `{ user, pwd, roles }`. -/
structure Credential where
  user : String
  pwd : String
  roles : List Role
deriving DecidableEq, Repr

/-- The field specification of an index: field names with their direction,
in the order written (`{ "createdAt": 1 }` is `[("createdAt", 1)]`). -/
abbrev KeySpec := List (String × Int)

/-- The options object of `createIndex`; an absent object, or an absent
`unique` key, means a non-unique index. -/
structure IndexOptions where
  unique : Bool
deriving DecidableEq, Repr

/-- The statements that occur in `mongo-init.js`. -/
inductive Stmt where
  /-- The statement `db = db.getSiblingDB(name);`. -/
  | getSiblingDB (name : String)
  /-- The statement `db.createUser(cred);`. -/
  | createUser (cred : Credential)
  /-- The statement `db.createCollection(name);`. -/
  | createCollection (name : String)
  /-- The statement `db.<coll>.createIndex(keys, opts);`. -/
  | createIndex (coll : String) (keys : KeySpec) (opts : IndexOptions)
  /-- The statement `print(msg);`. -/
  | print (msg : String)
deriving DecidableEq, Repr

/-- An administrative call as the server receives it: the shell has resolved
the variable `db` to a database name. -/
inductive Command where
  | createUser (db : String) (cred : Credential)
  | createCollection (db : String) (name : String)
  | createIndex (db : String) (coll : String) (keys : KeySpec) (unique : Bool)
deriving DecidableEq, Repr

/-! ## The script -/

/-- The name passed to `getSiblingDB` on line 2. -/
def targetDB : String := "deal_pipeline_db"

/-- The object passed to `db.createUser` on lines 5-14. -/
def appUser : Credential :=
  { user := "app_user"
    pwd := "app_password"
    roles := [{ role := "readWrite", db := "deal_pipeline_db" }] }

/-- The line printed on line 27. -/
def successLine : String := "MongoDB initialized successfully"

/-- The script `mongo-init.js`, statement by statement. -/
def mongoInit : List Stmt :=
  [ .getSiblingDB "deal_pipeline_db"
  , .createUser appUser
  , .createCollection "deals"
  , .createCollection "users"
  , .createCollection "stages"
  , .createIndex "deals" [("createdAt", 1)] { unique := false }
  , .createIndex "deals" [("status", 1)] { unique := false }
  , .createIndex "users" [("email", 1)] { unique := true }
  , .createIndex "stages" [("pipelineId", 1)] { unique := false }
  , .print "MongoDB initialized successfully" ]

/-! ## The shell -/

/-- A database server as the shell sees it: every administrative call either
returns, giving the next server state, or throws. -/
structure Server (σ ε : Type) where
  exec : Command → σ → Except ε σ

/-- What a run does that can be observed from outside, in order: the calls it
issues to the server and the lines it prints. -/
inductive Event where
  | call (c : Command)
  | printed (line : String)
deriving DecidableEq, Repr

/-- The state of a run: the value of the shell variable `db`, the state of the
server, and the events so far (oldest first). -/
structure Shell (σ : Type) where
  db : String
  server : σ
  trace : List Event
deriving DecidableEq, Repr

/-- The calls among the events, in order. -/
def issuedCalls : List Event → List Command
  | [] => []
  | .call c :: rest => c :: issuedCalls rest
  | .printed _ :: rest => issuedCalls rest

/-- The printed lines among the events, in order. -/
def printedLines : List Event → List String
  | [] => []
  | .call _ :: rest => printedLines rest
  | .printed line :: rest => line :: printedLines rest

/-- The calls a run has issued to the server. -/
def Shell.issued {σ : Type} (sh : Shell σ) : List Command :=
  issuedCalls sh.trace

/-- The standard output of a run. -/
def Shell.out {σ : Type} (sh : Shell σ) : List String :=
  printedLines sh.trace

/-- Issues one call.  The second component is the exception thrown, if any; a
call that throws is recorded as issued and leaves the server as it was. -/
def callServer {σ ε : Type} (srv : Server σ ε) (c : Command) (sh : Shell σ) :
    Shell σ × Option ε :=
  match srv.exec c sh.server with
  | .ok s => ({ sh with server := s, trace := sh.trace ++ [.call c] }, none)
  | .error e => ({ sh with trace := sh.trace ++ [.call c] }, some e)

/-- Runs one statement.  The second component is the exception thrown, if
any. -/
def execStmt {σ ε : Type} (srv : Server σ ε) : Stmt → Shell σ → Shell σ × Option ε
  | .getSiblingDB name, sh => ({ sh with db := name }, none)
  | .createUser cred, sh => callServer srv (.createUser sh.db cred) sh
  | .createCollection name, sh => callServer srv (.createCollection sh.db name) sh
  | .createIndex coll keys opts, sh =>
    callServer srv (.createIndex sh.db coll keys opts.unique) sh
  | .print msg, sh => ({ sh with trace := sh.trace ++ [.printed msg] }, none)

/-- Runs statements in order; the first exception ends the run. -/
def runStmts {σ ε : Type} (srv : Server σ ε) : List Stmt → Shell σ → Shell σ × Option ε
  | [], sh => (sh, none)
  | st :: rest, sh =>
    match execStmt srv st sh with
    | (sh1, none) => runStmts srv rest sh1
    | (sh1, some e) => (sh1, some e)

/-- The shell before the first statement: `db` holds the name of whatever
database the session was opened on. -/
def Shell.start {σ : Type} (db0 : String) (s : σ) : Shell σ :=
  { db := db0, server := s, trace := [] }

/-- A run of `mongo-init.js`. -/
def run {σ ε : Type} (srv : Server σ ε) (db0 : String) (s : σ) : Shell σ × Option ε :=
  runStmts srv mongoInit (Shell.start db0 s)

/-- The call a statement sends to the server when `db` holds the given name,
if it sends one. -/
def Stmt.command (db : String) : Stmt → Option Command
  | .getSiblingDB _ => none
  | .createUser cred => some (.createUser db cred)
  | .createCollection name => some (.createCollection db name)
  | .createIndex coll keys opts => some (.createIndex db coll keys opts.unique)
  | .print _ => none

/-- The calls of the script, in order, as a run that reaches the end issues
them. -/
def scriptCommands : List Command :=
  [ .createUser "deal_pipeline_db" appUser
  , .createCollection "deal_pipeline_db" "deals"
  , .createCollection "deal_pipeline_db" "users"
  , .createCollection "deal_pipeline_db" "stages"
  , .createIndex "deal_pipeline_db" "deals" [("createdAt", 1)] false
  , .createIndex "deal_pipeline_db" "deals" [("status", 1)] false
  , .createIndex "deal_pipeline_db" "users" [("email", 1)] true
  , .createIndex "deal_pipeline_db" "stages" [("pipelineId", 1)] false ]

/-- The events of a run that reaches the end: every call, then the success
line. -/
def completeTrace : List Event :=
  scriptCommands.map Event.call ++ [Event.printed successLine]

/-- Executes calls in order on the server alone, stopping at the first one
that throws. -/
def execAll {σ ε : Type} (srv : Server σ ε) : List Command → σ → Except ε σ
  | [], s => .ok s
  | c :: cs, s =>
    match srv.exec c s with
    | .ok s1 => execAll srv cs s1
    | .error e => .error e

/-! ## Observations on the issued calls -/

/-- Whether a call is a `createIndex`. -/
def Command.isCreateIndex : Command → Bool
  | .createIndex _ _ _ _ => true
  | _ => false

/-- Whether a call builds an ascending single-field non-unique index. -/
def Command.isPlainAscending : Command → Bool
  | .createIndex _ _ [(_, dir)] false => decide (dir = 1)
  | _ => false

/-- Whether a call builds a unique index. -/
def Command.isUniqueIndex : Command → Bool
  | .createIndex _ _ _ true => true
  | _ => false

/-- The collection a `createIndex` call is made on. -/
def Command.indexedCollection : Command → Option String
  | .createIndex _ coll _ _ => some coll
  | _ => none

/-- The collections that receive at least one `createIndex` call, each listed
once, in order of first use. -/
def indexedCollections (cs : List Command) : List String :=
  (cs.filterMap Command.indexedCollection).dedup

/-! ## The reference server

The server is not part of the repository.  Its behaviour is modelled from the
specification (data model, component design and error taxonomy). -/

/-- Modelled from the spec: the error taxonomy of the database server, which
is absent from the sources.  `ConnectionError` is listed for completeness; the
model takes the open session the bootstrapper is given as its input, so no
call raises it. -/
inductive ServerError where
  | DuplicateCredentialError
  | AuthorizationError
  | CollectionExistsError
  | IndexConflictError
  | UniqueConstraintViolationError
  | ConnectionError
deriving DecidableEq, Repr

/-- A stored document: its fields in order.  The server-assigned identifier is
left out; it is fresh for every insert. -/
abbrev Document := List (String × String)

/-- The value a document holds for a field, `none` when the field is absent. -/
def Document.field (d : Document) (f : String) : Option String :=
  (d.find? (fun kv => kv.1 == f)).map (fun kv => kv.2)

/-- Modelled from the spec: a secondary index of the server, absent from the
sources: a field specification and the uniqueness option.  The script names no
index, so the server derives the name from the field specification, and two
indexes of one collection have the same name when they have the same field
specification. -/
structure Index where
  keys : KeySpec
  unique : Bool
deriving DecidableEq, Repr

/-- Modelled from the spec: a collection of the server, absent from the
sources, identified by database name and collection name, with its documents
and its secondary indexes. -/
structure Collection where
  db : String
  name : String
  docs : List Document
  indexes : List Index
deriving DecidableEq, Repr

/-- Modelled from the spec: the persistent state of the server, absent from
the sources: the credentials, each with the database it was created on, and
the collections. -/
structure ServerState where
  credentials : List (String × Credential)
  collections : List Collection
deriving DecidableEq, Repr

/-- Modelled from the spec: what the specification leaves to the deployment:
whether creating a collection that exists is an error (`strictCreate`) or does
nothing, and whether the invoking session may create credentials. -/
structure ServerConfig where
  strictCreate : Bool
  mayCreateUsers : Bool
deriving DecidableEq, Repr

/-- The state of a server that has just been started: nothing stored. -/
def ServerState.empty : ServerState :=
  { credentials := [], collections := [] }

/-- Whether a collection is the one with the given database and name. -/
def Collection.isAt (c : Collection) (db name : String) : Bool :=
  c.db == db && c.name == name

/-- Whether a credential of the given name exists on the given database. -/
def ServerState.hasCredential (s : ServerState) (db user : String) : Bool :=
  s.credentials.any (fun p => p.1 == db && p.2.user == user)

/-- The credentials that exist on the given database. -/
def ServerState.credentialsOn (s : ServerState) (db : String) : List Credential :=
  (s.credentials.filter (fun p => p.1 == db)).map (fun p => p.2)

/-- Looks a collection up by database and name. -/
def ServerState.findCollection (s : ServerState) (db name : String) : Option Collection :=
  s.collections.find? (fun c => c.isAt db name)

/-- The collection with the given database and name, or the empty collection
an implicit creation would make. -/
def ServerState.collectionOrNew (s : ServerState) (db name : String) : Collection :=
  (s.findCollection db name).getD { db := db, name := name, docs := [], indexes := [] }

/-- Stores a collection: in place of the one with its database and name when
there is one, as a new collection otherwise. -/
def ServerState.putCollection (s : ServerState) (c : Collection) : ServerState :=
  if (s.findCollection c.db c.name).isSome then
    { s with collections := s.collections.map (fun x => if x.isAt c.db c.name then c else x) }
  else
    { s with collections := s.collections ++ [c] }

/-- The names of the collections of a database. -/
def ServerState.collectionNames (s : ServerState) (db : String) : List String :=
  (s.collections.filter (fun c => c.db == db)).map (fun c => c.name)

/-- The documents held in a collection; none when the collection does not
exist. -/
def ServerState.docsOf (s : ServerState) (db name : String) : List Document :=
  ((s.findCollection db name).map (fun c => c.docs)).getD []

/-- The secondary indexes of a collection; none when the collection does not
exist. -/
def ServerState.indexesOf (s : ServerState) (db name : String) : List Index :=
  ((s.findCollection db name).map (fun c => c.indexes)).getD []

/-- The values a document holds for the fields of a field specification. -/
def indexKey (keys : KeySpec) (d : Document) : List (Option String) :=
  keys.map (fun k => d.field k.1)

/-- Whether some two of the documents share their values on the fields of a
field specification. -/
def hasDuplicateKey (keys : KeySpec) (docs : List Document) : Bool :=
  decide (¬ (docs.map (indexKey keys)).Nodup)

/-- Modelled from the spec: `createUser` of the server, absent from the
sources: "fails with DuplicateCredentialError if the named credential already
exists; fails with AuthorizationError if the invoking session lacks privilege
to create credentials".  The two conditions are tested in the order the
specification states them. -/
def createUser (cfg : ServerConfig) (db : String) (cred : Credential) (s : ServerState) :
    Except ServerError ServerState :=
  if s.hasCredential db cred.user then .error .DuplicateCredentialError
  else if !cfg.mayCreateUsers then .error .AuthorizationError
  else .ok { s with credentials := s.credentials ++ [(db, cred)] }

/-- Modelled from the spec: `createCollection` of the server, absent from the
sources: creates an empty collection; when the collection exists it "fails
with CollectionExistsError if a strict-create semantics server rejects
duplicates" and is a no-op otherwise. -/
def createCollection (cfg : ServerConfig) (db name : String) (s : ServerState) :
    Except ServerError ServerState :=
  match s.findCollection db name with
  | some _ => if cfg.strictCreate then .error .CollectionExistsError else .ok s
  | none =>
    .ok { s with collections :=
      s.collections ++ [{ db := db, name := name, docs := [], indexes := [] }] }

/-- Modelled from the spec: `createIndex` of the server, absent from the
sources: "fails with IndexConflictError if an index with the same name but
different specification already exists, or with UniqueConstraintViolationError
at build time if existing data already violates the requested uniqueness";
asking for an index that exists as specified does nothing, and "index creation
implicitly creates the target collection". -/
def createIndex (db coll : String) (keys : KeySpec) (unique : Bool) (s : ServerState) :
    Except ServerError ServerState :=
  let c := s.collectionOrNew db coll
  match c.indexes.find? (fun i => i.keys == keys) with
  | some i => if i.unique == unique then .ok s else .error .IndexConflictError
  | none =>
    if unique && hasDuplicateKey keys c.docs then .error .UniqueConstraintViolationError
    else .ok (s.putCollection { c with indexes := c.indexes ++ [{ keys := keys, unique := unique }] })

/-- Modelled from the spec: a document insert of the server, absent from the
sources: "for a unique index, no two documents in the collection may share the
indexed field value (enforced by the server at write time)".  An insert into a
collection that does not exist creates it. -/
def insertOne (db coll : String) (doc : Document) (s : ServerState) :
    Except ServerError ServerState :=
  let c := s.collectionOrNew db coll
  if c.indexes.any (fun i => i.unique && c.docs.any (fun d => indexKey i.keys d == indexKey i.keys doc))
  then .error .UniqueConstraintViolationError
  else .ok (s.putCollection { c with docs := c.docs ++ [doc] })

/-- Modelled from the spec: the database server, absent from the sources, as
the shell sees it. -/
def mongod (cfg : ServerConfig) : Server ServerState ServerError where
  exec
    | .createUser db cred, s => createUser cfg db cred s
    | .createCollection db name, s => createCollection cfg db name s
    | .createIndex db coll keys unique, s => createIndex db coll keys unique s

/-- The state `mongo-init.js` leaves behind on a server that was empty. -/
def initialized : ServerState :=
  { credentials := [("deal_pipeline_db", appUser)]
    collections :=
      [ { db := "deal_pipeline_db", name := "deals", docs := []
          indexes := [{ keys := [("createdAt", 1)], unique := false },
                      { keys := [("status", 1)], unique := false }] }
      , { db := "deal_pipeline_db", name := "users", docs := []
          indexes := [{ keys := [("email", 1)], unique := true }] }
      , { db := "deal_pipeline_db", name := "stages", docs := []
          indexes := [{ keys := [("pipelineId", 1)], unique := false }] } ] }

/-- The events of a run of the statements in which no call throws, `db`
holding the given name at the start. -/
def eventsOf : String → List Stmt → List Event
  | _, [] => []
  | _, .getSiblingDB name :: rest => eventsOf name rest
  | db, .createUser cred :: rest => .call (.createUser db cred) :: eventsOf db rest
  | db, .createCollection name :: rest => .call (.createCollection db name) :: eventsOf db rest
  | db, .createIndex coll keys opts :: rest =>
    .call (.createIndex db coll keys opts.unique) :: eventsOf db rest
  | db, .print msg :: rest => .printed msg :: eventsOf db rest

/-- The value of `db` after the statements, given its value before them. -/
def finalDB : String → List Stmt → String
  | db, [] => db
  | _, .getSiblingDB name :: rest => finalDB name rest
  | db, _ :: rest => finalDB db rest

/-- Whether a statement is a `print`. -/
def Stmt.isPrint : Stmt → Bool
  | .print _ => true
  | _ => false

/-- A server state in which the collection `users` exists and holds one
document, and nothing else is stored. -/
def usersOnly : ServerState :=
  { credentials := []
    collections :=
      [{ db := "deal_pipeline_db", name := "users", docs := [[("email", "a@x.com")]],
         indexes := [] }] }

/-- The shell after the first three statements of the script have run against
`usersOnly`. -/
def usersOnlyAfterThree : Shell ServerState :=
  { db := "deal_pipeline_db"
    server :=
      { credentials := [("deal_pipeline_db", appUser)]
        collections :=
          [ { db := "deal_pipeline_db", name := "users", docs := [[("email", "a@x.com")]],
              indexes := [] }
          , { db := "deal_pipeline_db", name := "deals", docs := [], indexes := [] } ] }
    trace := [ .call (.createUser "deal_pipeline_db" appUser)
             , .call (.createCollection "deal_pipeline_db" "deals") ] }

/-! ## The shell: general facts -/

theorem runStmts_append {σ ε : Type} (srv : Server σ ε) (xs ys : List Stmt) (sh : Shell σ) :
    runStmts srv (xs ++ ys) sh =
      match runStmts srv xs sh with
      | (sh1, none) => runStmts srv ys sh1
      | (sh1, some e) => (sh1, some e) := by
  induction xs generalizing sh with
  | nil => simp [runStmts]
  | cons x xs ih =>
    simp only [List.cons_append, runStmts]
    cases h : execStmt srv x sh with
    | mk sh1 r =>
      cases r with
      | none => simpa using ih sh1
      | some e => simp

theorem issuedCalls_append (xs ys : List Event) :
    issuedCalls (xs ++ ys) = issuedCalls xs ++ issuedCalls ys := by
  induction xs with
  | nil => simp [issuedCalls]
  | cons x xs ih => cases x <;> simp [issuedCalls, ih]

theorem printedLines_append (xs ys : List Event) :
    printedLines (xs ++ ys) = printedLines xs ++ printedLines ys := by
  induction xs with
  | nil => simp [printedLines]
  | cons x xs ih => cases x <;> simp [printedLines, ih]

/-- The shell agrees with executing the calls of the statements on the server
alone: when every call returns the run reaches the end with all events, and
when one throws the run ends with that exception. -/
theorem runStmts_execAll {σ ε : Type} (srv : Server σ ε) (sts : List Stmt) (sh : Shell σ) :
    match execAll srv (issuedCalls (eventsOf sh.db sts)) sh.server with
    | .ok s1 =>
      runStmts srv sts sh = (⟨finalDB sh.db sts, s1, sh.trace ++ eventsOf sh.db sts⟩, none)
    | .error e => (runStmts srv sts sh).2 = some e := by
  induction sts generalizing sh with
  | nil => simp [eventsOf, issuedCalls, execAll, runStmts, finalDB]
  | cons st rest ih =>
    cases st with
    | getSiblingDB name =>
      simpa [eventsOf, finalDB, runStmts, execStmt] using ih { sh with db := name }
    | print msg =>
      have := ih { sh with trace := sh.trace ++ [.printed msg] }
      simpa [eventsOf, finalDB, runStmts, execStmt, issuedCalls] using this
    | createUser cred =>
      simp only [eventsOf, finalDB, runStmts, execStmt, issuedCalls, execAll, callServer]
      cases h : srv.exec (.createUser sh.db cred) sh.server with
      | error e => simp
      | ok s1 =>
        have := ih { sh with server := s1, trace := sh.trace ++ [.call (.createUser sh.db cred)] }
        simpa using this
    | createCollection name =>
      simp only [eventsOf, finalDB, runStmts, execStmt, issuedCalls, execAll, callServer]
      cases h : srv.exec (.createCollection sh.db name) sh.server with
      | error e => simp
      | ok s1 =>
        have := ih { sh with server := s1, trace := sh.trace ++ [.call (.createCollection sh.db name)] }
        simpa using this
    | createIndex coll keys opts =>
      simp only [eventsOf, finalDB, runStmts, execStmt, issuedCalls, execAll, callServer]
      cases h : srv.exec (.createIndex sh.db coll keys opts.unique) sh.server with
      | error e => simp
      | ok s1 =>
        have := ih { sh with server := s1,
                             trace := sh.trace ++ [.call (.createIndex sh.db coll keys opts.unique)] }
        simpa using this

/-- The events of a run are an initial segment of the events of the
statements. -/
theorem runStmts_trace {σ ε : Type} (srv : Server σ ε) (sts : List Stmt) (sh : Shell σ) :
    ∃ later, (runStmts srv sts sh).1.trace ++ later = sh.trace ++ eventsOf sh.db sts := by
  induction sts generalizing sh with
  | nil => exact ⟨[], by simp [runStmts, eventsOf]⟩
  | cons st rest ih =>
    cases st with
    | getSiblingDB name =>
      simpa [eventsOf, runStmts, execStmt] using ih { sh with db := name }
    | print msg =>
      simpa [eventsOf, runStmts, execStmt] using ih { sh with trace := sh.trace ++ [.printed msg] }
    | createUser cred =>
      simp only [eventsOf, runStmts, execStmt, callServer]
      cases h : srv.exec (.createUser sh.db cred) sh.server with
      | error e => exact ⟨eventsOf sh.db rest, by simp⟩
      | ok s1 =>
        simpa using ih { sh with server := s1, trace := sh.trace ++ [.call (.createUser sh.db cred)] }
    | createCollection name =>
      simp only [eventsOf, runStmts, execStmt, callServer]
      cases h : srv.exec (.createCollection sh.db name) sh.server with
      | error e => exact ⟨eventsOf sh.db rest, by simp⟩
      | ok s1 =>
        simpa using ih { sh with server := s1, trace := sh.trace ++ [.call (.createCollection sh.db name)] }
    | createIndex coll keys opts =>
      simp only [eventsOf, runStmts, execStmt, callServer]
      cases h : srv.exec (.createIndex sh.db coll keys opts.unique) sh.server with
      | error e => exact ⟨eventsOf sh.db rest, by simp⟩
      | ok s1 =>
        simpa using ih { sh with server := s1,
                                 trace := sh.trace ++ [.call (.createIndex sh.db coll keys opts.unique)] }

/-- Statements other than `print` print nothing. -/
theorem runStmts_out {σ ε : Type} (srv : Server σ ε) (sts : List Stmt) (sh : Shell σ)
    (h : ∀ st ∈ sts, st.isPrint = false) :
    (runStmts srv sts sh).1.out = sh.out := by
  induction sts generalizing sh with
  | nil => simp [runStmts]
  | cons st rest ih =>
    have hrest : ∀ st ∈ rest, st.isPrint = false := fun x hx => h x (List.mem_cons_of_mem _ hx)
    have hst := h st (List.mem_cons_self _ _)
    cases st with
    | print msg => simp [Stmt.isPrint] at hst
    | getSiblingDB name =>
      simpa [runStmts, execStmt, Shell.out] using ih { sh with db := name } hrest
    | createUser cred =>
      simp only [runStmts, execStmt, callServer]
      cases h : srv.exec (.createUser sh.db cred) sh.server with
      | error e => simp [Shell.out, printedLines_append, printedLines]
      | ok s1 =>
        simpa [Shell.out, printedLines_append, printedLines] using
          ih { sh with server := s1, trace := sh.trace ++ [.call (.createUser sh.db cred)] } hrest
    | createCollection name =>
      simp only [runStmts, execStmt, callServer]
      cases h : srv.exec (.createCollection sh.db name) sh.server with
      | error e => simp [Shell.out, printedLines_append, printedLines]
      | ok s1 =>
        simpa [Shell.out, printedLines_append, printedLines] using
          ih { sh with server := s1, trace := sh.trace ++ [.call (.createCollection sh.db name)] } hrest
    | createIndex coll keys opts =>
      simp only [runStmts, execStmt, callServer]
      cases h : srv.exec (.createIndex sh.db coll keys opts.unique) sh.server with
      | error e => simp [Shell.out, printedLines_append, printedLines]
      | ok s1 =>
        simpa [Shell.out, printedLines_append, printedLines] using
          ih { sh with server := s1,
                       trace := sh.trace ++ [.call (.createIndex sh.db coll keys opts.unique)] } hrest

theorem eventsOf_mongoInit (db0 : String) : eventsOf db0 mongoInit = completeTrace := rfl

theorem finalDB_mongoInit (db0 : String) : finalDB db0 mongoInit = targetDB := rfl

theorem issuedCalls_completeTrace : issuedCalls completeTrace = scriptCommands := rfl

/-! ## The run of the script: general facts -/

theorem mongoInit_split :
    mongoInit = mongoInit.take 9 ++ [Stmt.print successLine] := rfl

theorem run_of_execAll_ok {σ ε : Type} (srv : Server σ ε) (db0 : String) (s s1 : σ)
    (h : execAll srv scriptCommands s = .ok s1) :
    run srv db0 s = (⟨targetDB, s1, completeTrace⟩, none) := by
  have key := runStmts_execAll srv mongoInit (Shell.start db0 s)
  simp only [Shell.start, eventsOf_mongoInit, issuedCalls_completeTrace, h,
    finalDB_mongoInit, List.nil_append] at key
  exact key

theorem run_of_execAll_error {σ ε : Type} (srv : Server σ ε) (db0 : String) (s : σ) (e : ε)
    (h : execAll srv scriptCommands s = .error e) :
    (run srv db0 s).2 = some e := by
  have key := runStmts_execAll srv mongoInit (Shell.start db0 s)
  simp only [Shell.start, eventsOf_mongoInit, issuedCalls_completeTrace, h] at key
  exact key

theorem run_complete {σ ε : Type} (srv : Server σ ε) (db0 : String) (s : σ)
    (h : (run srv db0 s).2 = none) :
    ∃ s1, execAll srv scriptCommands s = .ok s1 ∧
      run srv db0 s = (⟨targetDB, s1, completeTrace⟩, none) := by
  cases hx : execAll srv scriptCommands s with
  | ok s1 => exact ⟨s1, rfl, run_of_execAll_ok srv db0 s s1 hx⟩
  | error e =>
    have := run_of_execAll_error srv db0 s e hx
    rw [h] at this
    cases this

theorem run_out_of_failed {σ ε : Type} (srv : Server σ ε) (db0 : String) (s : σ) (e : ε)
    (h : (run srv db0 s).2 = some e) :
    (run srv db0 s).1.out = [] := by
  have hpre : (runStmts srv (mongoInit.take 9) (Shell.start db0 s)).1.out = [] := by
    rw [runStmts_out srv _ _ (by decide)]
    rfl
  unfold run at h ⊢
  rw [mongoInit_split, runStmts_append] at h ⊢
  cases hx : runStmts srv (mongoInit.take 9) (Shell.start db0 s) with
  | mk sh1 r =>
    rw [hx] at hpre h
    cases r with
    | none => simp [runStmts, execStmt] at h
    | some e1 => simpa using hpre

/-! ## The claims on the script, for every server -/

/-- C1 (as stated, refuted): a complete run of the script on an empty server
does not issue five `createIndex` calls, four of them plain ascending and one
unique. -/
theorem C1_five_indexes_refuted :
    (run (mongod ⟨false, true⟩) "test" ServerState.empty).2 = none ∧
    ¬ ((run (mongod ⟨false, true⟩) "test" ServerState.empty).1.issued.countP
          Command.isCreateIndex = 5 ∧
       (run (mongod ⟨false, true⟩) "test" ServerState.empty).1.issued.countP
          Command.isPlainAscending = 4 ∧
       (run (mongod ⟨false, true⟩) "test" ServerState.empty).1.issued.countP
          Command.isUniqueIndex = 1) := by
  decide

/-- C1 (amended): every complete run of the script, on any server and from any
state, issues exactly four `createIndex` calls, of which three build ascending
single-field non-unique indexes and one builds a unique index. -/
theorem C1_four_indexes {σ ε : Type} (srv : Server σ ε) (db0 : String) (s : σ)
    (h : (run srv db0 s).2 = none) :
    (run srv db0 s).1.issued.countP Command.isCreateIndex = 4 ∧
    (run srv db0 s).1.issued.countP Command.isPlainAscending = 3 ∧
    (run srv db0 s).1.issued.countP Command.isUniqueIndex = 1 := by
  obtain ⟨s1, -, hrun⟩ := run_complete srv db0 s h
  rw [hrun]
  simp only [Shell.issued, issuedCalls_completeTrace]
  decide

/-- C1 (amended), at a concrete input: the complete run on an empty server. -/
theorem C1_four_indexes_witness :
    (run (mongod ⟨false, true⟩) "test" ServerState.empty).1.issued.countP
        Command.isCreateIndex = 4 ∧
    (run (mongod ⟨false, true⟩) "test" ServerState.empty).1.issued.countP
        Command.isPlainAscending = 3 ∧
    (run (mongod ⟨false, true⟩) "test" ServerState.empty).1.issued.countP
        Command.isUniqueIndex = 1 :=
  C1_four_indexes (mongod ⟨false, true⟩) "test" ServerState.empty (by decide)

/-- C2 (as stated, refuted): in a complete run of the script on an empty
server, the collections that receive a `createIndex` call are not two in
number. -/
theorem C2_two_collections_refuted :
    (run (mongod ⟨false, true⟩) "test" ServerState.empty).2 = none ∧
    ¬ (indexedCollections
        (run (mongod ⟨false, true⟩) "test" ServerState.empty).1.issued).length = 2 := by
  decide

/-- C2 (amended): in every complete run of the script, on any server and from
any state, the collections that receive at least one `createIndex` call are
the three created collections `deals`, `users` and `stages`: their number is
3. -/
theorem C2_three_collections {σ ε : Type} (srv : Server σ ε) (db0 : String) (s : σ)
    (h : (run srv db0 s).2 = none) :
    indexedCollections (run srv db0 s).1.issued = ["deals", "users", "stages"] ∧
    (indexedCollections (run srv db0 s).1.issued).length = 3 := by
  obtain ⟨s1, -, hrun⟩ := run_complete srv db0 s h
  rw [hrun]
  simp only [Shell.issued, issuedCalls_completeTrace]
  decide

/-- C2 (amended), at a concrete input: the complete run on an empty strict
server. -/
theorem C2_three_collections_witness :
    indexedCollections (run (mongod ⟨true, true⟩) "admin" ServerState.empty).1.issued
      = ["deals", "users", "stages"] ∧
    (indexedCollections
      (run (mongod ⟨true, true⟩) "admin" ServerState.empty).1.issued).length = 3 :=
  C2_three_collections (mongod ⟨true, true⟩) "admin" ServerState.empty (by decide)

/-- C7: the script is fail-fast with no rollback.  On any server, from any
state and for any position `k` in the script: if the statements before
position `k` run without an exception, leaving the shell `sh`, and the
statement at position `k` throws `e`, then the run ends with `e`; the
statement at `k` is a server call, the events of the run are those of the first
`k` statements followed by that call and nothing after it, and the server is in
the state the first `k` statements left it in. -/
theorem C7_fail_fast {σ ε : Type} (srv : Server σ ε) (db0 : String) (s : σ)
    (k : Nat) (st : Stmt) (sh sh1 : Shell σ) (e : ε)
    (hk : mongoInit[k]? = some st)
    (hpre : runStmts srv (mongoInit.take k) (Shell.start db0 s) = (sh, none))
    (hfail : execStmt srv st sh = (sh1, some e)) :
    run srv db0 s = (sh1, some e) ∧
    sh1.server = sh.server ∧
    ∃ c, st.command sh.db = some c ∧ srv.exec c sh.server = .error e ∧
      sh1.trace = sh.trace ++ [.call c] := by
  refine ⟨?_, ?_⟩
  · obtain ⟨hlt, hget⟩ := List.getElem?_eq_some.mp hk
    have hsplit : mongoInit = mongoInit.take k ++ st :: mongoInit.drop (k + 1) := by
      rw [← hget, ← List.drop_eq_getElem_cons hlt, List.take_append_drop]
    unfold run
    rw [hsplit, runStmts_append, hpre]
    simp [runStmts, hfail]
  · cases st with
    | getSiblingDB name => simp [execStmt] at hfail
    | print msg => simp [execStmt] at hfail
    | createUser cred =>
      simp only [execStmt, callServer] at hfail
      cases hx : srv.exec (.createUser sh.db cred) sh.server with
      | ok s1 => simp [hx] at hfail
      | error e1 =>
        simp only [hx, Prod.mk.injEq, Option.some.injEq] at hfail
        obtain ⟨h1, h2⟩ := hfail
        subst h1 h2
        exact ⟨rfl, _, rfl, hx, rfl⟩
    | createCollection name =>
      simp only [execStmt, callServer] at hfail
      cases hx : srv.exec (.createCollection sh.db name) sh.server with
      | ok s1 => simp [hx] at hfail
      | error e1 =>
        simp only [hx, Prod.mk.injEq, Option.some.injEq] at hfail
        obtain ⟨h1, h2⟩ := hfail
        subst h1 h2
        exact ⟨rfl, _, rfl, hx, rfl⟩
    | createIndex coll keys opts =>
      simp only [execStmt, callServer] at hfail
      cases hx : srv.exec (.createIndex sh.db coll keys opts.unique) sh.server with
      | ok s1 => simp [hx] at hfail
      | error e1 =>
        simp only [hx, Prod.mk.injEq, Option.some.injEq] at hfail
        obtain ⟨h1, h2⟩ := hfail
        subst h1 h2
        exact ⟨rfl, _, rfl, hx, rfl⟩

/-- C8: the success line is printed if and only if every step completed.  On
any server and from any state, either every call of the script returns, and
then the run ends without an exception, its events are all the calls followed
by the success line, and its output is that single line; or some call throws,
and then the run ends with that exception and its output is empty. -/
theorem C8_success_signal {σ ε : Type} (srv : Server σ ε) (db0 : String) (s : σ) :
    (∃ s1, execAll srv scriptCommands s = .ok s1 ∧
      (run srv db0 s).2 = none ∧
      (run srv db0 s).1.trace = scriptCommands.map Event.call ++ [Event.printed successLine] ∧
      (run srv db0 s).1.out = ["MongoDB initialized successfully"]) ∨
    (∃ e, execAll srv scriptCommands s = .error e ∧
      (run srv db0 s).2 = some e ∧
      (run srv db0 s).1.out = []) := by
  cases hx : execAll srv scriptCommands s with
  | ok s1 =>
    left
    refine ⟨s1, rfl, ?_⟩
    rw [run_of_execAll_ok srv db0 s s1 hx]
    exact ⟨rfl, rfl, rfl⟩
  | error e =>
    right
    have h2 := run_of_execAll_error srv db0 s e hx
    exact ⟨e, rfl, h2, run_out_of_failed srv db0 s e h2⟩

/-! ## The reference server: general facts -/

theorem execAll_empty (cfg : ServerConfig) (h : cfg.mayCreateUsers = true) :
    execAll (mongod cfg) scriptCommands ServerState.empty = .ok initialized := by
  obtain ⟨strict, may⟩ := cfg
  simp only at h
  subst h
  cases strict <;> rfl

theorem run_empty (cfg : ServerConfig) (db0 : String) (h : cfg.mayCreateUsers = true) :
    run (mongod cfg) db0 ServerState.empty = (⟨targetDB, initialized, completeTrace⟩, none) :=
  run_of_execAll_ok (mongod cfg) db0 _ _ (execAll_empty cfg h)

theorem isAt_iff (c : Collection) (db name : String) :
    c.isAt db name = true ↔ c.db = db ∧ c.name = name := by
  simp [Collection.isAt]

theorem find?_replace (l : List Collection) (c : Collection) (db name : String) :
    List.find? (fun x => x.isAt db name) (l.map (fun x => if x.isAt c.db c.name then c else x)) =
      if c.isAt db name then (List.find? (fun x => x.isAt db name) l).map (fun _ => c)
      else List.find? (fun x => x.isAt db name) l := by
  induction l with
  | nil => simp
  | cons x xs ih =>
    by_cases hc : c.isAt db name = true
    · have hc2 := (isAt_iff c db name).mp hc
      simp only [hc, if_true] at ih ⊢
      by_cases hx : x.isAt db name = true
      · have hx2 : x.isAt c.db c.name = true := by
          rw [isAt_iff] at hx ⊢
          exact ⟨hx.1.trans hc2.1.symm, hx.2.trans hc2.2.symm⟩
        simp [List.find?, hx, hx2, hc]
      · have hx2 : ¬ x.isAt c.db c.name = true := by
          intro h
          apply hx
          rw [isAt_iff] at h ⊢
          exact ⟨h.1.trans hc2.1, h.2.trans hc2.2⟩
        simp [List.find?, hx, hx2, ih]
    · simp only [hc] at ih ⊢
      simp only [Bool.false_eq_true, if_false] at ih ⊢
      by_cases hx2 : x.isAt c.db c.name = true
      · have hx : ¬ x.isAt db name = true := by
          intro h
          apply hc
          rw [isAt_iff] at h hx2 ⊢
          exact ⟨hx2.1.symm.trans h.1, hx2.2.symm.trans h.2⟩
        simp [List.find?, hx, hx2, hc, ih]
      · by_cases hx : x.isAt db name = true
        · simp [List.find?, hx, hx2]
        · simp [List.find?, hx, hx2, ih]

theorem findCollection_putCollection (s : ServerState) (c : Collection) (db name : String) :
    (s.putCollection c).findCollection db name =
      if c.isAt db name then some c else s.findCollection db name := by
  unfold ServerState.putCollection
  by_cases hfound : (s.findCollection c.db c.name).isSome = true
  · rw [if_pos hfound]
    show List.find? (fun x => x.isAt db name)
        (s.collections.map (fun x => if x.isAt c.db c.name then c else x)) = _
    rw [find?_replace]
    by_cases hc : c.isAt db name = true
    · have hc2 := (isAt_iff c db name).mp hc
      rw [if_pos hc, if_pos hc]
      obtain ⟨x, hx⟩ := Option.isSome_iff_exists.mp hfound
      rw [hc2.1, hc2.2] at hx
      unfold ServerState.findCollection at hx
      rw [hx]
      rfl
    · rw [if_neg hc, if_neg hc]
      rfl
  · rw [if_neg hfound]
    show List.find? (fun x => x.isAt db name) (s.collections ++ [c]) = _
    rw [List.find?_append]
    by_cases hc : c.isAt db name = true
    · have hc2 := (isAt_iff c db name).mp hc
      rw [if_pos hc]
      rw [hc2.1, hc2.2] at hfound
      have hnone : List.find? (fun x => x.isAt db name) s.collections = none := by
        have := Option.not_isSome_iff_eq_none.mp hfound
        exact this
      rw [hnone]
      simp [List.find?, hc]
    · rw [if_neg hc]
      have : List.find? (fun x => x.isAt db name) [c] = none := by
        simp [List.find?, hc]
      rw [this]
      unfold ServerState.findCollection
      cases List.find? (fun x => x.isAt db name) s.collections <;> rfl

theorem collectionOrNew_isAt (s : ServerState) (db name : String) :
    (s.collectionOrNew db name).db = db ∧ (s.collectionOrNew db name).name = name := by
  unfold ServerState.collectionOrNew ServerState.findCollection
  cases h : List.find? (fun c => c.isAt db name) s.collections with
  | none => simp
  | some c =>
    have := List.find?_some h
    simpa [isAt_iff] using this

theorem collectionOrNew_docs (s : ServerState) (db name : String) :
    (s.collectionOrNew db name).docs = s.docsOf db name := by
  unfold ServerState.collectionOrNew ServerState.docsOf
  cases s.findCollection db name <;> rfl

theorem docsOf_createUser (cfg : ServerConfig) (db : String) (cred : Credential)
    (s s1 : ServerState) (h : createUser cfg db cred s = .ok s1) (db1 name : String) :
    s1.docsOf db1 name = s.docsOf db1 name := by
  unfold createUser at h
  split at h
  · cases h
  · split at h
    · cases h
    · cases h
      rfl

theorem docsOf_putCollection (s : ServerState) (c : Collection) (db name : String) :
    (s.putCollection c).docsOf db name = if c.isAt db name then c.docs else s.docsOf db name := by
  unfold ServerState.docsOf
  rw [findCollection_putCollection]
  split <;> rfl

theorem docsOf_createCollection (cfg : ServerConfig) (db coll : String)
    (s s1 : ServerState) (h : createCollection cfg db coll s = .ok s1) (db1 name : String) :
    s1.docsOf db1 name = s.docsOf db1 name := by
  unfold createCollection at h
  split at h
  · split at h
    · cases h
    · cases h
      rfl
  · rename_i hnone
    cases h
    have hput : ({ s with collections :=
        s.collections ++ [{ db := db, name := coll, docs := [], indexes := [] }] } : ServerState) =
        s.putCollection { db := db, name := coll, docs := [], indexes := [] } := by
      unfold ServerState.putCollection
      simp [hnone]
    rw [hput, docsOf_putCollection]
    split
    · rename_i hat
      simp only [isAt_iff] at hat
      rw [← hat.1, ← hat.2]
      unfold ServerState.docsOf
      rw [hnone]
      rfl
    · rfl

theorem docsOf_createIndex (db coll : String) (keys : KeySpec) (unique : Bool)
    (s s1 : ServerState) (h : createIndex db coll keys unique s = .ok s1) (db1 name : String) :
    s1.docsOf db1 name = s.docsOf db1 name := by
  unfold createIndex at h
  simp only at h
  split at h
  · split at h
    · cases h
      rfl
    · cases h
  · split at h
    · cases h
    · cases h
      rw [docsOf_putCollection]
      split
      · rename_i hat
        obtain ⟨h1, h2⟩ := collectionOrNew_isAt s db coll
        simp only [isAt_iff] at hat
        rw [h1, h2] at hat
        rw [collectionOrNew_docs, hat.1, hat.2]
      · rfl

theorem docsOf_exec (cfg : ServerConfig) (c : Command) (s s1 : ServerState)
    (h : (mongod cfg).exec c s = .ok s1) (db name : String) :
    s1.docsOf db name = s.docsOf db name := by
  cases c with
  | createUser db0 cred => exact docsOf_createUser cfg db0 cred s s1 h db name
  | createCollection db0 coll => exact docsOf_createCollection cfg db0 coll s s1 h db name
  | createIndex db0 coll keys unique => exact docsOf_createIndex db0 coll keys unique s s1 h db name

/-- What no call changes, no run changes. -/
theorem runStmts_server_invariant {σ ε α : Type} (srv : Server σ ε) (f : σ → α)
    (hf : ∀ c s s1, srv.exec c s = .ok s1 → f s1 = f s) (sts : List Stmt) (sh : Shell σ) :
    f (runStmts srv sts sh).1.server = f sh.server := by
  have hcall : ∀ (c : Command) (sh : Shell σ),
      f (callServer srv c sh).1.server = f sh.server ∧
      ((callServer srv c sh).2 = none → (callServer srv c sh).1.db = sh.db) := by
    intro c sh
    unfold callServer
    cases hx : srv.exec c sh.server with
    | ok s1 => exact ⟨hf c _ _ hx, fun _ => rfl⟩
    | error e => exact ⟨rfl, fun _ => rfl⟩
  have hstep : ∀ (st : Stmt) (sh : Shell σ), f (execStmt srv st sh).1.server = f sh.server := by
    intro st sh
    cases st with
    | getSiblingDB name => rfl
    | print msg => rfl
    | createUser cred => exact (hcall _ sh).1
    | createCollection name => exact (hcall _ sh).1
    | createIndex coll keys opts => exact (hcall _ sh).1
  induction sts generalizing sh with
  | nil => rfl
  | cons st rest ih =>
    simp only [runStmts]
    have h1 := hstep st sh
    cases hx : execStmt srv st sh with
    | mk sh1 r =>
      rw [hx] at h1
      cases r with
      | none => simpa [h1] using ih sh1
      | some e => simpa using h1

/-! ## The claims on the script run against the reference server -/

/-- C7, at a concrete input: on a strict server where `users` already exists,
the run stops at the second `createCollection`; the credential and the
collection `deals` created before it stay. -/
theorem C7_fail_fast_witness :
    run (mongod ⟨true, true⟩) "test" usersOnly =
      ({ usersOnlyAfterThree with
          trace := usersOnlyAfterThree.trace ++
            [.call (.createCollection "deal_pipeline_db" "users")] },
        some ServerError.CollectionExistsError) ∧
    ({ usersOnlyAfterThree with
        trace := usersOnlyAfterThree.trace ++
          [.call (.createCollection "deal_pipeline_db" "users")] } : Shell ServerState).server
      = usersOnlyAfterThree.server ∧
    ∃ c, (Stmt.createCollection "users").command usersOnlyAfterThree.db = some c ∧
      (mongod ⟨true, true⟩).exec c usersOnlyAfterThree.server
        = .error ServerError.CollectionExistsError ∧
      ({ usersOnlyAfterThree with
          trace := usersOnlyAfterThree.trace ++
            [.call (.createCollection "deal_pipeline_db" "users")] } : Shell ServerState).trace
        = usersOnlyAfterThree.trace ++ [.call c] :=
  C7_fail_fast (mongod ⟨true, true⟩) "test" usersOnly 3 (.createCollection "users")
    usersOnlyAfterThree _ ServerError.CollectionExistsError (by decide) (by decide) (by decide)

/-- C3: on a server that was empty, for a session that may create credentials,
the script runs to completion and leaves on `deal_pipeline_db` exactly one
credential, named `app_user`, whose roles are exactly the one role `readWrite`
on `deal_pipeline_db`; the server holds no other credential on any
database. -/
theorem C3_one_credential (cfg : ServerConfig) (db0 : String)
    (h : cfg.mayCreateUsers = true) :
    (run (mongod cfg) db0 ServerState.empty).2 = none ∧
    ((run (mongod cfg) db0 ServerState.empty).1.server.credentialsOn "deal_pipeline_db").map
        (fun c => (c.user, c.roles))
      = [("app_user", [{ role := "readWrite", db := "deal_pipeline_db" }])] ∧
    (run (mongod cfg) db0 ServerState.empty).1.server.credentials.length = 1 := by
  rw [run_empty cfg db0 h]
  decide

/-- C3, at a concrete input: a lenient server and a session opened on `test`. -/
theorem C3_one_credential_witness :
    (run (mongod ⟨false, true⟩) "test" ServerState.empty).2 = none ∧
    ((run (mongod ⟨false, true⟩) "test" ServerState.empty).1.server.credentialsOn
        "deal_pipeline_db").map (fun c => (c.user, c.roles))
      = [("app_user", [{ role := "readWrite", db := "deal_pipeline_db" }])] ∧
    (run (mongod ⟨false, true⟩) "test" ServerState.empty).1.server.credentials.length = 1 :=
  C3_one_credential ⟨false, true⟩ "test" rfl

/-- C4: on a server that was empty, for a session that may create credentials,
the script runs to completion and leaves `deal_pipeline_db` with exactly the
collections `deals`, `users` and `stages`; no collection exists in any other
database, and no `createIndex` call created a further collection. -/
theorem C4_three_collections (cfg : ServerConfig) (db0 : String)
    (h : cfg.mayCreateUsers = true) :
    (run (mongod cfg) db0 ServerState.empty).2 = none ∧
    (run (mongod cfg) db0 ServerState.empty).1.server.collectionNames "deal_pipeline_db"
      = ["deals", "users", "stages"] ∧
    (run (mongod cfg) db0 ServerState.empty).1.server.collections.length = 3 := by
  rw [run_empty cfg db0 h]
  decide

/-- C4, at a concrete input: a strict server and a session opened on `test`. -/
theorem C4_three_collections_witness :
    (run (mongod ⟨true, true⟩) "test" ServerState.empty).2 = none ∧
    (run (mongod ⟨true, true⟩) "test" ServerState.empty).1.server.collectionNames
        "deal_pipeline_db" = ["deals", "users", "stages"] ∧
    (run (mongod ⟨true, true⟩) "test" ServerState.empty).1.server.collections.length = 3 :=
  C4_three_collections ⟨true, true⟩ "test" rfl

/-- C5: on a server that was empty, for a session that may create credentials,
the script runs to completion and the secondary indexes are exactly: on
`deals` a non-unique ascending index on `createdAt` and one on `status`, on
`users` a unique ascending index on `email`, on `stages` a non-unique
ascending index on `pipelineId`; there is no other collection, hence no other
index. -/
theorem C5_index_layout (cfg : ServerConfig) (db0 : String)
    (h : cfg.mayCreateUsers = true) :
    (run (mongod cfg) db0 ServerState.empty).2 = none ∧
    (run (mongod cfg) db0 ServerState.empty).1.server.collections.map
        (fun c => (c.db, c.name, c.indexes))
      = [ ("deal_pipeline_db", "deals",
            [{ keys := [("createdAt", 1)], unique := false },
             { keys := [("status", 1)], unique := false }])
        , ("deal_pipeline_db", "users", [{ keys := [("email", 1)], unique := true }])
        , ("deal_pipeline_db", "stages", [{ keys := [("pipelineId", 1)], unique := false }]) ] ∧
    (run (mongod cfg) db0 ServerState.empty).1.server.indexesOf "deal_pipeline_db" "deals"
      = [{ keys := [("createdAt", 1)], unique := false },
         { keys := [("status", 1)], unique := false }] ∧
    (run (mongod cfg) db0 ServerState.empty).1.server.indexesOf "deal_pipeline_db" "users"
      = [{ keys := [("email", 1)], unique := true }] ∧
    (run (mongod cfg) db0 ServerState.empty).1.server.indexesOf "deal_pipeline_db" "stages"
      = [{ keys := [("pipelineId", 1)], unique := false }] := by
  rw [run_empty cfg db0 h]
  decide

/-- C5, at a concrete input: a lenient server and a session opened on `admin`. -/
theorem C5_index_layout_witness :
    (run (mongod ⟨false, true⟩) "admin" ServerState.empty).2 = none ∧
    (run (mongod ⟨false, true⟩) "admin" ServerState.empty).1.server.collections.map
        (fun c => (c.db, c.name, c.indexes))
      = [ ("deal_pipeline_db", "deals",
            [{ keys := [("createdAt", 1)], unique := false },
             { keys := [("status", 1)], unique := false }])
        , ("deal_pipeline_db", "users", [{ keys := [("email", 1)], unique := true }])
        , ("deal_pipeline_db", "stages", [{ keys := [("pipelineId", 1)], unique := false }]) ] ∧
    (run (mongod ⟨false, true⟩) "admin" ServerState.empty).1.server.indexesOf
        "deal_pipeline_db" "deals"
      = [{ keys := [("createdAt", 1)], unique := false },
         { keys := [("status", 1)], unique := false }] ∧
    (run (mongod ⟨false, true⟩) "admin" ServerState.empty).1.server.indexesOf
        "deal_pipeline_db" "users"
      = [{ keys := [("email", 1)], unique := true }] ∧
    (run (mongod ⟨false, true⟩) "admin" ServerState.empty).1.server.indexesOf
        "deal_pipeline_db" "stages"
      = [{ keys := [("pipelineId", 1)], unique := false }] :=
  C5_index_layout ⟨false, true⟩ "admin" rfl

/-- C9: running the script never destroys data.  On the reference server, from
every state and whether the run completes or fails, every collection of every
database (in particular `deals`, `users` and `stages`) holds after the run
exactly the documents it held before; and the calls the run issues are an
initial segment of the eight `createUser`, `createCollection` and
`createIndex` calls of the script, so nothing is dropped, deleted, updated or
replaced. -/
theorem C9_documents_preserved (cfg : ServerConfig) (db0 : String) (s : ServerState) :
    (∀ db name : String,
      (run (mongod cfg) db0 s).1.server.docsOf db name = s.docsOf db name) ∧
    (run (mongod cfg) db0 s).1.server.docsOf "deal_pipeline_db" "deals"
      = s.docsOf "deal_pipeline_db" "deals" ∧
    (run (mongod cfg) db0 s).1.server.docsOf "deal_pipeline_db" "users"
      = s.docsOf "deal_pipeline_db" "users" ∧
    (run (mongod cfg) db0 s).1.server.docsOf "deal_pipeline_db" "stages"
      = s.docsOf "deal_pipeline_db" "stages" ∧
    ∃ later, (run (mongod cfg) db0 s).1.issued ++ later = scriptCommands := by
  have hall : ∀ db name : String,
      (run (mongod cfg) db0 s).1.server.docsOf db name = s.docsOf db name := by
    intro db name
    exact runStmts_server_invariant (mongod cfg) (fun t => t.docsOf db name)
      (fun c t t1 ht => docsOf_exec cfg c t t1 ht db name) mongoInit (Shell.start db0 s)
  refine ⟨hall, hall _ _, hall _ _, hall _ _, ?_⟩
  obtain ⟨later, hl⟩ := runStmts_trace (mongod cfg) mongoInit (Shell.start db0 s)
  refine ⟨issuedCalls later, ?_⟩
  have := congrArg issuedCalls hl
  rw [issuedCalls_append] at this
  simpa [Shell.issued, run, Shell.start, eventsOf_mongoInit, issuedCalls_completeTrace] using this

/-- C10: a run on a server where the credential `app_user` already exists on
`deal_pipeline_db` fails at `createUser` with `DuplicateCredentialError`: that
call is the only one issued (no `createCollection`, no `createIndex`), the
server state is unchanged, and nothing is printed. -/
theorem C10_duplicate_credential (cfg : ServerConfig) (db0 : String) (s : ServerState)
    (h : s.hasCredential "deal_pipeline_db" "app_user" = true) :
    run (mongod cfg) db0 s =
      (⟨"deal_pipeline_db", s, [.call (.createUser "deal_pipeline_db" appUser)]⟩,
        some ServerError.DuplicateCredentialError) ∧
    (run (mongod cfg) db0 s).1.issued = [.createUser "deal_pipeline_db" appUser] ∧
    (run (mongod cfg) db0 s).1.out = [] := by
  have hrun : run (mongod cfg) db0 s =
      (⟨"deal_pipeline_db", s, [.call (.createUser "deal_pipeline_db" appUser)]⟩,
        some ServerError.DuplicateCredentialError) := by
    have hc : createUser cfg "deal_pipeline_db" appUser s
        = .error ServerError.DuplicateCredentialError := by
      have h1 : s.hasCredential "deal_pipeline_db" appUser.user = true := h
      unfold createUser
      rw [if_pos h1]
    simp [run, mongoInit, runStmts, execStmt, callServer, mongod, hc, Shell.start]
  rw [hrun]
  exact ⟨rfl, rfl, rfl⟩

/-- C10, at a concrete input: the second of two sequential runs on a server
that was empty fails at `createUser` and changes nothing. -/
theorem C10_duplicate_credential_witness :
    run (mongod ⟨false, true⟩) "test" (run (mongod ⟨false, true⟩) "test" ServerState.empty).1.server =
      (⟨"deal_pipeline_db", (run (mongod ⟨false, true⟩) "test" ServerState.empty).1.server,
        [.call (.createUser "deal_pipeline_db" appUser)]⟩,
        some ServerError.DuplicateCredentialError) ∧
    (run (mongod ⟨false, true⟩) "test"
      (run (mongod ⟨false, true⟩) "test" ServerState.empty).1.server).1.issued
      = [.createUser "deal_pipeline_db" appUser] ∧
    (run (mongod ⟨false, true⟩) "test"
      (run (mongod ⟨false, true⟩) "test" ServerState.empty).1.server).1.out = [] :=
  C10_duplicate_credential ⟨false, true⟩ "test"
    (run (mongod ⟨false, true⟩) "test" ServerState.empty).1.server (by decide)

theorem insertOne_users_first (d1 : Document) :
    insertOne "deal_pipeline_db" "users" d1 initialized =
      .ok (initialized.putCollection
        { db := "deal_pipeline_db", name := "users", docs := [d1],
          indexes := [{ keys := [("email", 1)], unique := true }] }) := by
  simp [insertOne, ServerState.collectionOrNew, ServerState.findCollection, initialized,
    Collection.isAt, List.find?]

/-- C6: the unique index on `users.email` is enforced.  In the state a complete
run leaves on a server that was empty, for every email `e` and all documents
`d1`, `d2` with that email: inserting `d1` into `users` succeeds, `users` then
holds exactly `d1`, and inserting `d2` is rejected with
`UniqueConstraintViolationError`; for every document `d3` whose email is a
different value, inserting `d3` after `d1` succeeds and `users` then holds
`d1` and `d3`. -/
theorem C6_unique_email (cfg : ServerConfig) (db0 : String) (e e3 : String)
    (d1 d2 d3 : Document)
    (h : cfg.mayCreateUsers = true)
    (h1 : d1.field "email" = some e) (h2 : d2.field "email" = some e)
    (h3 : d3.field "email" = some e3) (hne : e ≠ e3) :
    (run (mongod cfg) db0 ServerState.empty).2 = none ∧
    ∃ s1, insertOne "deal_pipeline_db" "users" d1
            (run (mongod cfg) db0 ServerState.empty).1.server = .ok s1 ∧
      s1.docsOf "deal_pipeline_db" "users" = [d1] ∧
      insertOne "deal_pipeline_db" "users" d2 s1
        = .error ServerError.UniqueConstraintViolationError ∧
      ∃ s2, insertOne "deal_pipeline_db" "users" d3 s1 = .ok s2 ∧
        s2.docsOf "deal_pipeline_db" "users" = [d1, d3] := by
  rw [run_empty cfg db0 h]
  refine ⟨rfl, _, insertOne_users_first d1, ?_, ?_, ?_⟩
  · rw [docsOf_putCollection]
    rfl
  · simp [insertOne, ServerState.collectionOrNew, findCollection_putCollection, Collection.isAt,
      indexKey, h1, h2]
  · refine ⟨(initialized.putCollection
        { db := "deal_pipeline_db", name := "users", docs := [d1],
          indexes := [{ keys := [("email", 1)], unique := true }] }).putCollection
        { db := "deal_pipeline_db", name := "users", docs := [d1, d3],
          indexes := [{ keys := [("email", 1)], unique := true }] }, ?_, ?_⟩
    · simp [insertOne, ServerState.collectionOrNew, findCollection_putCollection, Collection.isAt,
        indexKey, h1, h3, hne]
    · simp [docsOf_putCollection, Collection.isAt]

/-- C6, at a concrete input: the email `a@x.com` twice, then `b@x.com`. -/
theorem C6_unique_email_witness :
    (run (mongod ⟨false, true⟩) "test" ServerState.empty).2 = none ∧
    ∃ s1, insertOne "deal_pipeline_db" "users" [("email", "a@x.com")]
            (run (mongod ⟨false, true⟩) "test" ServerState.empty).1.server = .ok s1 ∧
      s1.docsOf "deal_pipeline_db" "users" = [[("email", "a@x.com")]] ∧
      insertOne "deal_pipeline_db" "users" [("name", "second"), ("email", "a@x.com")] s1
        = .error ServerError.UniqueConstraintViolationError ∧
      ∃ s2, insertOne "deal_pipeline_db" "users" [("email", "b@x.com")] s1 = .ok s2 ∧
        s2.docsOf "deal_pipeline_db" "users" = [[("email", "a@x.com")], [("email", "b@x.com")]] :=
  C6_unique_email ⟨false, true⟩ "test" "a@x.com" "b@x.com" [("email", "a@x.com")]
    [("name", "second"), ("email", "a@x.com")] [("email", "b@x.com")] rfl (by decide) (by decide)
    (by decide) (by decide)

end MongoInit
